import Mathlib

/-!
Verification of the Hive Engine token-distribution engine
(`src/src/mining_arc/__init__.py`) against its specification.

Modelling conventions:
* Python `Decimal` values are modelled as exact rationals (`ℚ`); the
  `ROUND_DOWN` rounding mode is round-toward-zero truncation.  The
  context precision of 16 significant digits is not modelled; all amounts
  considered stay well inside it.
* `Decimal(text)` parsing of an untrusted balance string is modelled as an
  `Option ℚ` (`none` when the constructor raises).
* The blockchain collaborator `hive_wallet.transfer` is modelled as an
  oracle `TransferFn` returning a `TransferOutcome`: it may raise, return a
  falsy value (what the `nobroadcast`/dry-run instance does), or return a
  truthy response dict whose `trx_id` entry may be present, empty or
  missing.
* The mutable `self.stats` dictionary, the `self.audit_log` list and the
  `time.sleep(1)` calls are threaded explicitly through a `RunState`;
  `sleeps` counts the `time.sleep(1)` invocations.
* Environment access at startup (`TokenConfig.from_env`,
  `validate_environment`) is modelled by an `Env` record; `sys.exit(1)` and
  an uncaught exception at startup are both modelled as `Except.error 1`.
-/

namespace MiningArc

/-- Python `Decimal` rounding mode `ROUND_DOWN`: truncation toward zero. -/
def truncTowardZero (x : ℚ) : ℤ :=
  if 0 ≤ x then ⌊x⌋ else ⌈x⌉

/-- `Decimal.quantize(Decimal("0.0001"), rounding=ROUND_DOWN)`:
truncate toward zero at 4 fractional digits. -/
def quantize4 (x : ℚ) : ℚ :=
  (truncTowardZero (x * 10000) : ℚ) / 10000

/-- `Decimal.quantize(Decimal("1."), rounding=ROUND_DOWN)`:
truncate toward zero to whole units. -/
def quantizeUnits (x : ℚ) : ℚ :=
  (truncTowardZero x : ℚ)

/-- The fields of `TokenConfig` that the engine reads (the node and API
URLs are passed straight to collaborators and are not modelled). -/
structure TokenConfig where
  payout_rate : ℚ
  token_query : String
  token_name : String
  blacklisted_accounts : List String
  nobroadcast : Bool
deriving DecidableEq, Repr

/-- A filtered token holder (`TokenHolder` dataclass). -/
structure TokenHolder where
  account : String
  balance : ℚ
deriving DecidableEq, Repr

/-- `TokenHolder.payment_amount`:
`(self.balance * config.payout_rate).quantize(Decimal("0.0001"), ROUND_DOWN)`. -/
def TokenHolder.payment_amount (h : TokenHolder) (config : TokenConfig) : ℚ :=
  quantize4 (h.balance * config.payout_rate)

/-- One raw record returned by `token.get_holder()`: an account name and
the result of `Decimal(holder["balance"])` (`none` when parsing raises). -/
structure RawHolder where
  account : String
  balance : Option ℚ
deriving DecidableEq, Repr

/-- Evaluation of every `Decimal(holder["balance"])` in the richlist
comprehension: the first record whose balance text fails to parse raises,
aborting the whole comprehension (`none`). -/
def parseBalances : List RawHolder → Option (List (String × ℚ))
  | [] => some []
  | r :: rs =>
    match r.balance, parseBalances rs with
    | some b, some ps => some ((r.account, b) :: ps)
    | _, _ => none

/-- The filter-and-truncate comprehension inside `get_richlist`, applied
to successfully parsed `(account, balance)` pairs. -/
def richlistOf (config : TokenConfig) (parsed : List (String × ℚ)) : List TokenHolder :=
  (parsed.filter fun p =>
      decide (1 ≤ p.2) && !(config.blacklisted_accounts.contains p.1)).map
    fun p => { account := p.1, balance := quantizeUnits p.2 }

/-- Statistics dictionary `self.stats` (the wall-clock fields are not
modelled). -/
structure Stats where
  total_holders : ℕ := 0
  successful_payments : ℕ := 0
  failed_payments : ℕ := 0
  total_tokens_distributed : ℚ := 0
deriving DecidableEq, Repr

/-- The audit-log entry appended by `process_payments` (the timestamp
columns are not modelled). -/
structure AuditRecord where
  account : String
  balance : ℚ
  payment : ℚ
  status : String
  transaction_id : String
deriving DecidableEq, Repr

/-- The run's mutable state: the audit log, the stats dictionary, and a
count of `time.sleep(1)` calls. -/
structure RunState where
  audit_log : List AuditRecord := []
  stats : Stats := {}
  sleeps : ℕ := 0
deriving DecidableEq, Repr

/-- What one call of the `hive_wallet.transfer` collaborator does:
raise, return a falsy value (the `nobroadcast` dry-run behaviour), or
return a truthy dict whose `trx_id` entry is `trx_id` (an absent or
`None` entry is `none`). -/
inductive TransferOutcome where
  | raises
  | falsy
  | dict (trx_id : Option String)
deriving DecidableEq, Repr

/-- The transfer collaborator as an oracle over recipient and amount. -/
def TransferFn : Type := String → ℚ → TransferOutcome

/-- Python truthiness of the `Optional[str]` transaction id: `None` and
the empty string are falsy. -/
def pyTruthy : Option String → Bool
  | none => false
  | some s => decide (s ≠ "")

/-- `TokenDistributor.send_transaction`: returns the transaction id
(`none` models the `except` branch returning `None`) and the updated
stats.  `tx.get("trx_id") or ""` maps a missing or empty id to `""`;
a falsy `tx` yields the `"DRY_RUN"` placeholder. -/
def send_transaction (outcome : TransferOutcome) (amount : ℚ) (stats : Stats) :
    Option String × Stats :=
  match outcome with
  | .raises =>
      (none, { stats with failed_payments := stats.failed_payments + 1 })
  | .falsy =>
      (some "DRY_RUN",
       { stats with
          successful_payments := stats.successful_payments + 1,
          total_tokens_distributed := stats.total_tokens_distributed + amount })
  | .dict o =>
      (some (o.getD ""),
       { stats with
          successful_payments := stats.successful_payments + 1,
          total_tokens_distributed := stats.total_tokens_distributed + amount })

/-- The body of the `for holder in holders` loop of
`TokenDistributor.process_payments`: compute the amount, and when it is
positive send, classify (`"Success" if tx_id else "Failed"`), append the
audit record and sleep. -/
def processHolder (transfer : TransferFn) (config : TokenConfig)
    (st : RunState) (holder : TokenHolder) : RunState :=
  let amount := holder.payment_amount config
  if 0 < amount then
    let r := send_transaction (transfer holder.account amount) amount st.stats
    { audit_log := st.audit_log ++
        [{ account := holder.account
           balance := holder.balance
           payment := amount
           status := if pyTruthy r.1 then "Success" else "Failed"
           transaction_id := r.1.getD "" }]
      stats := r.2
      sleeps := st.sleeps + 1 }
  else st

/-- `TokenDistributor.process_payments` over a holder list. -/
def process_payments (transfer : TransferFn) (config : TokenConfig)
    (holders : List TokenHolder) (st : RunState) : RunState :=
  holders.foldl (processHolder transfer config) st

/-- `TokenDistributor.get_richlist` with its stats side effect: a `none`
fetch models `token.get_holder()` raising; a parse failure inside the
comprehension also lands in the `except` branch, which returns `[]` and
leaves the stats untouched.  On success `stats["total_holders"]` is set
to the number of admitted holders. -/
def get_richlist_run (config : TokenConfig) (fetch : Option (List RawHolder))
    (st : RunState) : List TokenHolder × RunState :=
  match fetch with
  | none => ([], st)
  | some raw =>
    match parseBalances raw with
    | none => ([], st)
    | some parsed =>
      let holders := richlistOf config parsed
      (holders, { st with stats := { st.stats with total_holders := holders.length } })

/-- The holder list `get_richlist` returns. -/
def get_richlist (config : TokenConfig) (fetch : Option (List RawHolder)) :
    List TokenHolder :=
  (get_richlist_run config fetch {}).1

/-- The `main` pipeline after startup: fetch and filter the richlist,
then process payments (report rendering is a collaborator). -/
def runMain (config : TokenConfig) (fetch : Option (List RawHolder))
    (transfer : TransferFn) : RunState :=
  let p := get_richlist_run config fetch {}
  process_payments transfer config p.1 p.2

/-- The startup environment: the two secrets as `os.getenv` sees them and
the result of `Decimal(os.getenv("PAYOUT_RATE", "0.25"))` (`none` when the
`Decimal` constructor raises `InvalidOperation`). -/
structure Env where
  active_wif : Option String
  posting_wif : Option String
  payout_rate : Option ℚ
  dry_run : Bool
deriving DecidableEq, Repr

/-- `TokenConfig.from_env`, with the non-secret string options at their
defaults: `none` models the uncaught `Decimal` parse exception. -/
def from_env (e : Env) : Option TokenConfig :=
  e.payout_rate.map fun r =>
    { payout_rate := r
      token_query := "ARCHONM"
      token_name := "ARCHON"
      blacklisted_accounts := ["ufm.pay", "upfundme"]
      nobroadcast := e.dry_run }

/-- `validate_environment`'s missing-variable list: a secret is missing
when `os.getenv` returns `None` or a falsy (empty) string. -/
def missing_vars (e : Env) : List String :=
  ["ACTIVE_WIF", "POSTING_WIF"].filter fun v =>
    !(pyTruthy (if v = "ACTIVE_WIF" then e.active_wif else e.posting_wif))

/-- `TokenDistributor.__init__` up to a usable configuration:
`from_env` runs first (an unparseable rate raises out of `main`, exiting
non-zero), then `validate_environment` calls `sys.exit(1)` when a secret
is missing.  `Except.error 1` models the non-zero process exit. -/
def startup (e : Env) : Except Nat TokenConfig :=
  match from_env e with
  | none => .error 1
  | some config =>
    if missing_vars e = [] then .ok config else .error 1

/-- The whole program: startup, then the richlist/payments pipeline. -/
def runFull (e : Env) (fetch : Option (List RawHolder)) (transfer : TransferFn) :
    Except Nat RunState :=
  (startup e).map fun config => runMain config fetch transfer

/-- The audit record `process_payments` appends for one dispatched
holder (the send's transaction id does not depend on the incoming
stats). -/
def attemptRecord (transfer : TransferFn) (config : TokenConfig)
    (holder : TokenHolder) : AuditRecord :=
  let amount := holder.payment_amount config
  let tx := (send_transaction (transfer holder.account amount) amount {}).1
  { account := holder.account
    balance := holder.balance
    payment := amount
    status := if pyTruthy tx then "Success" else "Failed"
    transaction_id := tx.getD "" }

/-- Sum of the payment amounts of the audit records with status
`"Success"`. -/
def successTotal (log : List AuditRecord) : ℚ :=
  ((log.filter fun r => decide (r.status = "Success")).map fun r => r.payment).sum

/-- A transfer outcome that never produces an empty truthy transaction
id: it raises, is falsy, or carries a non-empty `trx_id`. -/
def goodOutcome : TransferOutcome → Bool
  | .dict o => decide (o.getD "" ≠ "")
  | _ => true

/-- A configuration differing from the defaults only in its payout rate
and an empty blacklist. -/
def configWithRate (r : ℚ) : TokenConfig :=
  { payout_rate := r
    token_query := "ARCHONM"
    token_name := "ARCHON"
    blacklisted_accounts := []
    nobroadcast := false }

/-- Modelled from the spec (§4.1, §3 Holder): the eligible holder set in
the specification's words — each parsed balance truncated toward zero to
whole units, keeping exactly the holders whose truncated balance is at
least 1 and whose account is not blacklisted. -/
def specEligibleHolders (config : TokenConfig) (parsed : List (String × ℚ)) :
    List TokenHolder :=
  (parsed.filter fun p =>
      decide (1 ≤ truncTowardZero p.2) && !(config.blacklisted_accounts.contains p.1)).map
    fun p => { account := p.1, balance := (truncTowardZero p.2 : ℚ) }


/-- Truncation toward zero agrees with the floor on nonnegative inputs. -/
lemma truncTowardZero_of_nonneg {x : ℚ} (h : 0 ≤ x) : truncTowardZero x = ⌊x⌋ :=
  if_pos h

/-- Truncation toward zero of a nonpositive value is nonpositive. -/
lemma truncTowardZero_nonpos {x : ℚ} (h : x ≤ 0) : truncTowardZero x ≤ 0 := by
  unfold truncTowardZero
  split
  · exact Int.floor_nonpos h
  · exact Int.ceil_le.mpr (by exact_mod_cast h)

/-- Truncation toward zero reaches 1 exactly when the input does. -/
lemma one_le_truncTowardZero_iff {x : ℚ} : 1 ≤ truncTowardZero x ↔ 1 ≤ x := by
  constructor
  · intro h
    by_contra hx
    push_neg at hx
    rcases le_or_lt 0 x with h0 | h0
    · rw [truncTowardZero_of_nonneg h0] at h
      exact absurd (Int.le_floor.mp h) (by push_cast; exact hx.not_le)
    · exact absurd h (by have := truncTowardZero_nonpos h0.le; omega)
  · intro h
    rw [truncTowardZero_of_nonneg (le_trans zero_le_one h)]
    exact Int.le_floor.mpr (by exact_mod_cast h)

/-- Value of truncation toward zero pinned between consecutive nonnegative
integers. -/
lemma truncTowardZero_eq_of {x : ℚ} {n : ℤ} (h0 : 0 ≤ n) (h1 : (n : ℚ) ≤ x)
    (h2 : x < n + 1) : truncTowardZero x = n := by
  have hx : 0 ≤ x := le_trans (by exact_mod_cast h0) h1
  rw [truncTowardZero_of_nonneg hx]
  exact Int.floor_eq_iff.mpr ⟨h1, by exact_mod_cast h2⟩

/-- Concrete evaluation of `quantize4` on nonnegative inputs. -/
lemma quantize4_eq_of {x : ℚ} {n : ℤ} (h0 : 0 ≤ n) (h1 : (n : ℚ) ≤ x * 10000)
    (h2 : x * 10000 < n + 1) : quantize4 x = n / 10000 := by
  rw [quantize4, truncTowardZero_eq_of h0 h1 h2]

/-- Quantization with `ROUND_DOWN` keeps nonpositive values nonpositive. -/
lemma quantize4_nonpos {x : ℚ} (h : x ≤ 0) : quantize4 x ≤ 0 := by
  have h1 : truncTowardZero (x * 10000) ≤ 0 := truncTowardZero_nonpos (by linarith)
  have h2 : (truncTowardZero (x * 10000) : ℚ) ≤ 0 := by exact_mod_cast h1
  rw [quantize4]
  linarith

/-- A positive quantized amount is at least one quantization unit. -/
lemma quantize4_pos_iff {x : ℚ} : 0 < quantize4 x ↔ (1 : ℚ) / 10000 ≤ quantize4 x := by
  rw [quantize4]
  constructor
  · intro h
    have hn : 0 < truncTowardZero (x * 10000) := by
      by_contra hc
      push_neg at hc
      have : (truncTowardZero (x * 10000) : ℚ) ≤ 0 := by exact_mod_cast hc
      linarith
    have : (1 : ℚ) ≤ (truncTowardZero (x * 10000) : ℚ) := by exact_mod_cast hn
    linarith
  · intro h
    linarith


/-- A holder the dispatcher pays: its quantized amount is positive. -/
def eligibleB (config : TokenConfig) (h : TokenHolder) : Bool :=
  decide (0 < h.payment_amount config)

/-- Whether the transfer collaborator raises for this holder's dispatch. -/
def raisesB (transfer : TransferFn) (config : TokenConfig) (h : TokenHolder) : Bool :=
  decide (transfer h.account (h.payment_amount config) = .raises)

/-- The holders `process_payments` actually dispatches, in order. -/
def dispatched (config : TokenConfig) (hs : List TokenHolder) : List TokenHolder :=
  hs.filter (eligibleB config)

/-- The transaction id computed by `send_transaction` does not depend on
the incoming stats. -/
lemma send_transaction_fst (o : TransferOutcome) (a : ℚ) (s s' : Stats) :
    (send_transaction o a s).1 = (send_transaction o a s').1 := by
  cases o <;> rfl

/-- Unfolding of the dispatch loop body on an eligible holder. -/
lemma processHolder_of_elig (transfer : TransferFn) (config : TokenConfig)
    (st : RunState) (h : TokenHolder) (he : 0 < h.payment_amount config) :
    processHolder transfer config st h =
      { audit_log := st.audit_log ++ [attemptRecord transfer config h]
        stats := (send_transaction (transfer h.account (h.payment_amount config))
                    (h.payment_amount config) st.stats).2
        sleeps := st.sleeps + 1 } := by
  simp only [processHolder, attemptRecord]
  rw [if_pos he,
    send_transaction_fst (transfer h.account (h.payment_amount config))
      (h.payment_amount config) st.stats {}]

/-- The dispatch loop body skips an ineligible holder entirely. -/
lemma processHolder_of_not_elig (transfer : TransferFn) (config : TokenConfig)
    (st : RunState) (h : TokenHolder) (he : ¬ 0 < h.payment_amount config) :
    processHolder transfer config st h = st := by
  rw [processHolder, if_neg he]

/-- Full characterization of one run of the payment loop: the audit log
grows by one record per dispatched holder in order, the success and
failure counters count the non-raising and raising dispatches, the
distributed total grows by the non-raising amounts, the sleep count by
the number of dispatches, and `total_holders` is untouched. -/
lemma process_payments_char (transfer : TransferFn) (config : TokenConfig) :
    ∀ (hs : List TokenHolder) (st : RunState),
    process_payments transfer config hs st =
      { audit_log := st.audit_log ++
          (dispatched config hs).map (attemptRecord transfer config)
        stats :=
          { total_holders := st.stats.total_holders
            successful_payments := st.stats.successful_payments +
              ((dispatched config hs).filter
                (fun h => !raisesB transfer config h)).length
            failed_payments := st.stats.failed_payments +
              ((dispatched config hs).filter (raisesB transfer config)).length
            total_tokens_distributed := st.stats.total_tokens_distributed +
              (((dispatched config hs).filter
                  (fun h => !raisesB transfer config h)).map
                (fun h => h.payment_amount config)).sum }
        sleeps := st.sleeps + (dispatched config hs).length }
  | [], st => by
    simp [process_payments, dispatched]
  | h :: hs, st => by
    have step : process_payments transfer config (h :: hs) st =
        process_payments transfer config hs (processHolder transfer config st h) := rfl
    by_cases he : 0 < h.payment_amount config
    · rw [step, processHolder_of_elig transfer config st h he,
        process_payments_char transfer config hs]
      have hd : dispatched config (h :: hs) = h :: dispatched config hs := by
        simp [dispatched, List.filter_cons, eligibleB, he]
      by_cases hr : transfer h.account (h.payment_amount config) = .raises
      · have hrB : raisesB transfer config h = true := by
          simp [raisesB, hr]
        rw [hr]
        simp only [send_transaction, hd, List.filter_cons, hrB, Bool.not_true]
        simp [RunState.mk.injEq, Stats.mk.injEq, List.append_assoc]
        all_goals and_intros <;> first | rfl | omega
      · have hrB : raisesB transfer config h = false := by
          simp [raisesB, hr]
        have hsend : (send_transaction (transfer h.account (h.payment_amount config))
            (h.payment_amount config) st.stats).2 =
            { st.stats with
                successful_payments := st.stats.successful_payments + 1
                total_tokens_distributed :=
                  st.stats.total_tokens_distributed + h.payment_amount config } := by
          cases ho : transfer h.account (h.payment_amount config)
          · exact absurd ho hr
          · rfl
          · rfl
        rw [hsend]
        simp only [hd, List.filter_cons, hrB, Bool.not_false]
        simp [RunState.mk.injEq, Stats.mk.injEq, List.append_assoc]
        all_goals and_intros <;> first | rfl | omega | ring
    · rw [step, processHolder_of_not_elig transfer config st h he,
        process_payments_char transfer config hs]
      have hd : dispatched config (h :: hs) = dispatched config hs := by
        simp [dispatched, List.filter_cons, eligibleB, he]
      rw [hd]


/-- Concrete evaluation of `quantize4` from an exact product of the
quantization unit. -/
lemma quantize4_of_mul_eq {x : ℚ} {n : ℤ} (h0 : 0 ≤ n) (h1 : x * 10000 = n) :
    quantize4 x = n / 10000 :=
  quantize4_eq_of h0 (le_of_eq h1.symm) (by rw [h1]; linarith)

/-- Truncation toward zero fixes the integers. -/
lemma truncTowardZero_intCast (n : ℤ) : truncTowardZero (n : ℚ) = n := by
  unfold truncTowardZero
  split
  · exact Int.floor_intCast n
  · exact Int.ceil_intCast n

/-- Payment of a 100-unit holder at rate 1/4. -/
lemma pay_100_quarter (a : String) :
    TokenHolder.payment_amount ⟨a, 100⟩ (configWithRate (1/4)) = 25 := by
  rw [TokenHolder.payment_amount,
    quantize4_of_mul_eq (n := 250000) (by norm_num) (by norm_num [configWithRate])]
  norm_num

/-- Payment of a 4-unit holder at rate 1/4. -/
lemma pay_4_quarter (a : String) :
    TokenHolder.payment_amount ⟨a, 4⟩ (configWithRate (1/4)) = 1 := by
  rw [TokenHolder.payment_amount,
    quantize4_of_mul_eq (n := 10000) (by norm_num) (by norm_num [configWithRate])]
  norm_num

/-- Payment of a 1-unit holder at rate 1/100000 quantizes to zero. -/
lemma pay_1_tiny (a : String) :
    TokenHolder.payment_amount ⟨a, 1⟩ (configWithRate (1/100000)) = 0 := by
  rw [TokenHolder.payment_amount,
    quantize4_eq_of (n := 0) le_rfl (by norm_num [configWithRate])
      (by norm_num [configWithRate])]
  norm_num

/-- Parsing succeeds on a batch whose every balance text parses, and
yields the corresponding pairs. -/
lemma parseBalances_of_all_some : ∀ (raw : List RawHolder),
    (∀ r ∈ raw, r.balance.isSome) →
    parseBalances raw = some (raw.filterMap fun r => r.balance.map fun b => (r.account, b))
  | [], _ => rfl
  | r :: rs, h => by
    obtain ⟨b, hb⟩ := Option.isSome_iff_exists.mp (h r (List.mem_cons_self r rs))
    rw [parseBalances, hb,
      parseBalances_of_all_some rs fun x hx => h x (List.mem_cons_of_mem r hx)]
    simp [List.filterMap_cons, hb]

/-- One unparseable balance text fails the whole batch. -/
lemma parseBalances_of_bad (r0 : RawHolder) : ∀ (raw : List RawHolder),
    r0 ∈ raw → r0.balance = none → parseBalances raw = none
  | r :: rs, hmem, hnone => by
    rcases List.mem_cons.mp hmem with h | h
    · subst h
      rw [parseBalances, hnone]
    · rw [parseBalances, parseBalances_of_bad r0 rs h hnone]
      cases r.balance <;> rfl

/-- The A/B scenario richlist: the zero-balance holder is dropped and
the 100-unit holder admitted, with `total_holders` set to 1. -/
lemma richlist_scenario_AB :
    get_richlist_run (configWithRate (1/4))
      (some [⟨"A", some 100⟩, ⟨"B", some 0⟩]) {} =
    ([⟨"A", 100⟩], { stats := { total_holders := 1 } }) := by
  rw [get_richlist_run, parseBalances_of_all_some _ (by simp)]
  norm_num [richlistOf, List.filterMap_cons, List.filter_cons, configWithRate,
    quantizeUnits,
    truncTowardZero_eq_of (x := 100) (n := 100) (by norm_num) (by norm_num) (by norm_num)]

/-- The single-holder scenario richlist at balance 1. -/
lemma richlist_scenario_C (r : ℚ) :
    get_richlist_run (configWithRate r) (some [⟨"C", some 1⟩]) {} =
    ([⟨"C", 1⟩], { stats := { total_holders := 1 } }) := by
  rw [get_richlist_run, parseBalances_of_all_some _ (by simp)]
  norm_num [richlistOf, List.filterMap_cons, List.filter_cons, configWithRate,
    quantizeUnits,
    truncTowardZero_eq_of (x := 1) (n := 1) (by norm_num) (by norm_num) (by norm_num)]


/-- `successTotal` distributes over list append. -/
lemma successTotal_append (l1 l2 : List AuditRecord) :
    successTotal (l1 ++ l2) = successTotal l1 + successTotal l2 := by
  simp [successTotal, List.filter_append]

/-- Under a collaborator that never returns a truthy response with an
empty id, the successfully recorded amounts are exactly the non-raising
dispatch amounts. -/
lemma successTotal_map_attemptRecord (transfer : TransferFn) (config : TokenConfig)
    (hgood : ∀ a q, goodOutcome (transfer a q) = true) :
    ∀ D : List TokenHolder,
    successTotal (D.map (attemptRecord transfer config)) =
      ((D.filter fun h => !raisesB transfer config h).map
        fun h => h.payment_amount config).sum
  | [] => by simp [successTotal]
  | h :: D => by
    rw [List.map_cons]
    have tail := successTotal_map_attemptRecord transfer config hgood D
    by_cases hr : transfer h.account (h.payment_amount config) = .raises
    · have hrB : raisesB transfer config h = true := by simp [raisesB, hr]
      have hrec : (attemptRecord transfer config h).status = "Failed" := by
        simp [attemptRecord, hr, send_transaction, pyTruthy]
      simp [successTotal, List.filter_cons, hrec, List.filter_cons, hrB] at tail ⊢
      simpa [successTotal] using tail
    · have hrB : raisesB transfer config h = false := by simp [raisesB, hr]
      have hrec : (attemptRecord transfer config h).status = "Success" ∧
          (attemptRecord transfer config h).payment = h.payment_amount config := by
        cases ho : transfer h.account (h.payment_amount config) with
        | raises => exact absurd ho hr
        | falsy => simp [attemptRecord, ho, send_transaction, pyTruthy]
        | dict o =>
          have := hgood h.account (h.payment_amount config)
          rw [ho] at this
          simp only [goodOutcome, decide_eq_true_eq] at this
          simp [attemptRecord, ho, send_transaction, pyTruthy, this]
      simp [successTotal, List.filter_cons, hrec.1, List.filter_cons, hrB] at tail ⊢
      rw [hrec.2]
      simpa [successTotal] using tail

/-- Conservation between the audit log and the distributed total, for
collaborators that never return a truthy response with an empty id. -/
lemma conservation_general (transfer : TransferFn) (config : TokenConfig)
    (holders : List TokenHolder) (st : RunState)
    (hgood : ∀ a q, goodOutcome (transfer a q) = true)
    (hinv : successTotal st.audit_log = st.stats.total_tokens_distributed) :
    successTotal (process_payments transfer config holders st).audit_log =
      (process_payments transfer config holders st).stats.total_tokens_distributed := by
  rw [process_payments_char, successTotal_append,
    successTotal_map_attemptRecord transfer config hgood, hinv]

/-- With a nonpositive payout rate every holder with nonnegative balance
quantizes to a nonpositive amount. -/
lemma payment_nonpos_of_rate_nonpos (config : TokenConfig) (h : TokenHolder)
    (hr : config.payout_rate ≤ 0) (hb : 0 ≤ h.balance) :
    h.payment_amount config ≤ 0 := by
  rw [TokenHolder.payment_amount]
  exact quantize4_nonpos (mul_nonpos_iff.mpr (Or.inl ⟨hb, hr⟩))

/-- With a nonpositive payout rate the payment loop is a no-op. -/
lemma process_payments_of_rate_nonpos (transfer : TransferFn) (config : TokenConfig)
    (hr : config.payout_rate ≤ 0) :
    ∀ (holders : List TokenHolder), (∀ h ∈ holders, 0 ≤ h.balance) →
    ∀ st : RunState, process_payments transfer config holders st = st
  | [], _, st => rfl
  | h :: hs, hb, st => by
    have step : process_payments transfer config (h :: hs) st =
        process_payments transfer config hs (processHolder transfer config st h) := rfl
    rw [step, processHolder_of_not_elig transfer config st h
        (not_lt.mpr (payment_nonpos_of_rate_nonpos config h hr
          (hb h (List.mem_cons_self h hs)))),
      process_payments_of_rate_nonpos transfer config hr hs
        (fun x hx => hb x (List.mem_cons_of_mem h hx)) st]


/-- Unfolding of the main pipeline. -/
lemma runMain_eq (config : TokenConfig) (fetch : Option (List RawHolder))
    (transfer : TransferFn) :
    runMain config fetch transfer =
      process_payments transfer config
        (get_richlist_run config fetch {}).1 (get_richlist_run config fetch {}).2 := rfl

/-- C1: for every holder with integer balance B at least 1 and every
positive payout rate R, `TokenHolder.payment_amount` returns exactly
floor(B * R) quantized to 4 fractional digits by round-toward-zero
truncation, in exact decimal arithmetic; in particular B=100, R=0.25
gives 25.0000, B=3, R=0.25 gives 0.7500, B=1, R=0.003 gives 0.0030 and
B=1, R=0.00001 gives 0.0000. -/
theorem payment_amount_floor_quantized :
    (∀ (config : TokenConfig) (a : String) (B : ℤ), 1 ≤ B → 0 < config.payout_rate →
      TokenHolder.payment_amount ⟨a, (B : ℚ)⟩ config =
        ((⌊(B : ℚ) * config.payout_rate * 10000⌋ : ℚ) / 10000)) ∧
    TokenHolder.payment_amount ⟨"h", 100⟩ (configWithRate (1/4)) = 25 ∧
    TokenHolder.payment_amount ⟨"h", 3⟩ (configWithRate (1/4)) = 3/4 ∧
    TokenHolder.payment_amount ⟨"h", 1⟩ (configWithRate (3/1000)) = 3/1000 ∧
    TokenHolder.payment_amount ⟨"h", 1⟩ (configWithRate (1/100000)) = 0 := by
  refine ⟨?_, pay_100_quarter "h", ?_, ?_, pay_1_tiny "h"⟩
  · intro config a B hB hR
    have hB0 : (0 : ℚ) ≤ (B : ℚ) := by exact_mod_cast (by omega : (0 : ℤ) ≤ B)
    have hx : (0 : ℚ) ≤ (B : ℚ) * config.payout_rate * 10000 :=
      mul_nonneg (mul_nonneg hB0 hR.le) (by norm_num)
    rw [TokenHolder.payment_amount, quantize4, truncTowardZero_of_nonneg hx]
  · rw [TokenHolder.payment_amount,
      quantize4_of_mul_eq (n := 7500) (by norm_num) (by norm_num [configWithRate])]
    norm_num
  · rw [TokenHolder.payment_amount,
      quantize4_of_mul_eq (n := 30) (by norm_num) (by norm_num [configWithRate])]
    norm_num

/-- C3 (code evaluated at the failing input): a live transfer that
completes without raising but returns a truthy response with no
transaction id is logged with status Failed and empty id, while the
stats still count it as a successful payment and add its amount. -/
theorem empty_id_logged_failed_but_counted :
    (TransferOutcome.dict none ≠ TransferOutcome.raises) ∧
    process_payments (fun _ _ => .dict none) (configWithRate (1/4))
        [⟨"alice", 100⟩] ({} : RunState) =
      { audit_log := [{ account := "alice", balance := 100, payment := 25,
                        status := "Failed", transaction_id := "" }]
        stats := { total_holders := 0, successful_payments := 1, failed_payments := 0,
                   total_tokens_distributed := 25 }
        sleeps := 1 } := by
  refine ⟨by simp, ?_⟩
  have hpay := pay_100_quarter "alice"
  rw [show process_payments (fun _ _ => .dict none) (configWithRate (1/4))
        [⟨"alice", 100⟩] ({} : RunState) =
      processHolder (fun _ _ => .dict none) (configWithRate (1/4)) {} ⟨"alice", 100⟩
      from rfl,
    processHolder_of_elig _ _ _ _ (by rw [hpay]; norm_num)]
  simp only [attemptRecord, send_transaction, hpay, pyTruthy, Option.getD_none]
  norm_num

/-- C8: a failed balance fetch or one unparseable balance record yields
an empty holder set instead of raising, and a run over an empty holder
set completes unchanged, with zero payments. -/
theorem retrieval_failure_yields_empty_run :
    (∀ config : TokenConfig, get_richlist config none = []) ∧
    (∀ (config : TokenConfig) (raw : List RawHolder) (r0 : RawHolder),
        r0 ∈ raw → r0.balance = none → get_richlist config (some raw) = []) ∧
    (∀ (transfer : TransferFn) (config : TokenConfig) (st : RunState),
        process_payments transfer config [] st = st) ∧
    (∀ transfer : TransferFn,
        runMain (configWithRate (1/4)) none transfer = ({} : RunState)) ∧
    (∀ transfer : TransferFn,
        runMain (configWithRate (1/4))
          (some [⟨"x", none⟩, ⟨"y", some 100⟩]) transfer = ({} : RunState)) := by
  refine ⟨fun config => rfl, ?_, fun _ _ _ => rfl, fun _ => rfl, ?_⟩
  · intro config raw r0 hmem hnone
    rw [get_richlist, get_richlist_run, parseBalances_of_bad r0 raw hmem hnone]
  · intro transfer
    rw [runMain, get_richlist_run,
      parseBalances_of_bad ⟨"x", none⟩ _ (by simp) rfl]
    rfl

/-- C10: a zero or negative configured payout rate makes every holder's
quantized amount nonpositive, so the payment loop attempts no transfer,
creates no audit record, and completes normally with zero success and
failure counts; the whole run ends normally. -/
theorem nonpositive_rate_silently_absorbed :
    (∀ (config : TokenConfig) (h : TokenHolder),
        config.payout_rate ≤ 0 → 0 ≤ h.balance → h.payment_amount config ≤ 0) ∧
    (∀ (transfer : TransferFn) (config : TokenConfig)
        (holders : List TokenHolder) (st : RunState),
        config.payout_rate ≤ 0 → (∀ h ∈ holders, 0 ≤ h.balance) →
        process_payments transfer config holders st = st) ∧
    (∀ transfer : TransferFn,
        runFull ⟨some "K1", some "K2", some (-(1/2)), false⟩
          (some [⟨"alice", some 100⟩]) transfer =
        .ok { stats := { total_holders := 1 } }) := by
  refine ⟨payment_nonpos_of_rate_nonpos, ?_, ?_⟩
  · intro transfer config holders st hr hb
    exact process_payments_of_rate_nonpos transfer config hr holders hb st
  · intro transfer
    have hstart : startup (⟨some "K1", some "K2", some (-(1/2)), false⟩ : Env) =
        .ok { payout_rate := -(1/2), token_query := "ARCHONM", token_name := "ARCHON",
              blacklisted_accounts := ["ufm.pay", "upfundme"], nobroadcast := false } := by
      simp [startup, from_env, missing_vars, pyTruthy]
    rw [runFull, hstart]
    have hrl : get_richlist_run
        { payout_rate := -(1/2), token_query := "ARCHONM", token_name := "ARCHON",
          blacklisted_accounts := ["ufm.pay", "upfundme"], nobroadcast := false }
        (some [⟨"alice", some 100⟩]) {} =
        ([⟨"alice", 100⟩], { stats := { total_holders := 1 } }) := by
      rw [get_richlist_run, parseBalances_of_all_some _ (by simp)]
      norm_num [richlistOf, List.filterMap_cons, List.filter_cons, quantizeUnits,
        truncTowardZero_eq_of (x := 100) (n := 100) (by norm_num) (by norm_num)
          (by norm_num)]
      simp
      have h100 : truncTowardZero (100 : ℚ) = 100 :=
        truncTowardZero_eq_of (by norm_num) (by norm_num) (by norm_num)
      rw [h100]
      norm_num
    rw [show (Except.map (fun config =>
          runMain config (some [⟨"alice", some 100⟩]) transfer)
          (Except.ok (ε := ℕ)
            { payout_rate := -(1/2), token_query := "ARCHONM", token_name := "ARCHON",
              blacklisted_accounts := ["ufm.pay", "upfundme"], nobroadcast := false })) =
        Except.ok (runMain
          { payout_rate := -(1/2), token_query := "ARCHONM", token_name := "ARCHON",
            blacklisted_accounts := ["ufm.pay", "upfundme"], nobroadcast := false }
          (some [⟨"alice", some 100⟩]) transfer) from rfl,
      runMain_eq, hrl]
    rw [process_payments_of_rate_nonpos _ _ (by norm_num) _ (by norm_num) _]


/-- C2 counterexample: one eligible holder whose live transfer returns a
truthy response carrying an empty transaction id; the sum of the
Success-record amounts (zero) differs from the distributed total (25)
after `process_payments`. -/
theorem success_sum_ne_distributed_on_empty_id :
    successTotal (process_payments (fun _ _ => .dict (some "")) (configWithRate (1/4))
        [⟨"bob", 100⟩] ({} : RunState)).audit_log ≠
      (process_payments (fun _ _ => .dict (some "")) (configWithRate (1/4))
        [⟨"bob", 100⟩] ({} : RunState)).stats.total_tokens_distributed := by
  have hpay := pay_100_quarter "bob"
  rw [show process_payments (fun _ _ => .dict (some "")) (configWithRate (1/4))
        [⟨"bob", 100⟩] ({} : RunState) =
      processHolder (fun _ _ => .dict (some "")) (configWithRate (1/4)) {} ⟨"bob", 100⟩
      from rfl,
    processHolder_of_elig _ _ _ _ (by rw [hpay]; norm_num)]
  simp only [attemptRecord, send_transaction, hpay, pyTruthy]
  simp [successTotal]

/-- C2 (amended): whenever every outcome of the transfer collaborator is
good — it raises, is falsy, or returns a non-empty transaction id — the
sum of the Success-record amounts equals the distributed total at every
point during and after `process_payments`, provided it held at entry. -/
theorem conservation_under_nonempty_ids (transfer : TransferFn) (config : TokenConfig)
    (holders : List TokenHolder) (st : RunState)
    (hgood : ∀ a q, goodOutcome (transfer a q) = true)
    (hinv : successTotal st.audit_log = st.stats.total_tokens_distributed) :
    ∀ k : ℕ,
      successTotal (process_payments transfer config (holders.take k) st).audit_log =
        (process_payments transfer config (holders.take k) st).stats.total_tokens_distributed :=
  fun k => conservation_general transfer config (holders.take k) st hgood hinv

/-- Witness for the amended conservation theorem at a concrete dry-run
input. -/
theorem conservation_under_nonempty_ids_witness :
    (∀ (a : String) (q : ℚ),
      goodOutcome (((fun _ _ => TransferOutcome.falsy) : TransferFn) a q) = true) ∧
    successTotal (({} : RunState)).audit_log =
      (({} : RunState)).stats.total_tokens_distributed ∧
    successTotal (process_payments (fun _ _ => .falsy) (configWithRate (1/4))
        ([⟨"alice", 100⟩].take 1) ({} : RunState)).audit_log =
      (process_payments (fun _ _ => .falsy) (configWithRate (1/4))
        ([⟨"alice", 100⟩].take 1) ({} : RunState)).stats.total_tokens_distributed :=
  ⟨fun _ _ => rfl, rfl,
    conservation_under_nonempty_ids (fun _ _ => .falsy) (configWithRate (1/4))
      [⟨"alice", 100⟩] {} (fun _ _ => rfl) rfl 1⟩


/-- C4: over a batch of eligible holders, every holder is attempted even
when the collaborator raises for an earlier one — the audit log gains one
record per holder in order, success plus failure counts grow by the
number of holders attempted, the distributed total grows only by the
non-raising amounts, and a raising dispatch is recorded as Failed with an
empty transaction id. -/
theorem partial_failure_tolerated :
    (∀ (transfer : TransferFn) (config : TokenConfig)
        (holders : List TokenHolder) (st : RunState),
      (∀ h ∈ holders, 0 < h.payment_amount config) →
      (process_payments transfer config holders st).audit_log =
          st.audit_log ++ holders.map (attemptRecord transfer config) ∧
      (process_payments transfer config holders st).stats.successful_payments +
          (process_payments transfer config holders st).stats.failed_payments =
        st.stats.successful_payments + st.stats.failed_payments + holders.length ∧
      (process_payments transfer config holders st).stats.total_tokens_distributed =
        st.stats.total_tokens_distributed +
          (((holders.filter fun h => !raisesB transfer config h).map
            fun h => h.payment_amount config).sum)) ∧
    (∀ (transfer : TransferFn) (config : TokenConfig) (h : TokenHolder),
      transfer h.account (h.payment_amount config) = .raises →
      attemptRecord transfer config h =
        { account := h.account, balance := h.balance,
          payment := h.payment_amount config, status := "Failed",
          transaction_id := "" }) ∧
    (process_payments
        (fun a _ => if a = "b" then .raises else .dict (some "T"))
        (configWithRate (1/4)) [⟨"a", 4⟩, ⟨"b", 4⟩, ⟨"c", 4⟩] ({} : RunState)).stats =
      { total_holders := 0, successful_payments := 2, failed_payments := 1,
        total_tokens_distributed := 2 } := by
  refine ⟨?_, ?_, ?_⟩
  · intro transfer config holders st helig
    have hd : dispatched config holders = holders :=
      List.filter_eq_self.mpr fun h hm => by
        simp [eligibleB, helig h hm]
    rw [process_payments_char, hd]
    refine ⟨rfl, ?_, rfl⟩
    have := List.length_eq_length_filter_add (l := holders) (raisesB transfer config)
    dsimp only
    omega
  · intro transfer config h hr
    simp [attemptRecord, hr, send_transaction, pyTruthy]
  · have ha := pay_4_quarter "a"
    have hb := pay_4_quarter "b"
    have hc := pay_4_quarter "c"
    rw [show ([⟨"a", 4⟩, ⟨"b", 4⟩, ⟨"c", 4⟩] : List TokenHolder) =
        ⟨"a", 4⟩ :: ⟨"b", 4⟩ :: ⟨"c", 4⟩ :: [] from rfl]
    rw [process_payments_char]
    have hda : dispatched (configWithRate (1/4)) [⟨"a", 4⟩, ⟨"b", 4⟩, ⟨"c", 4⟩] =
        [⟨"a", 4⟩, ⟨"b", 4⟩, ⟨"c", 4⟩] :=
      List.filter_eq_self.mpr fun h hm => by
        rcases List.mem_cons.mp hm with h1 | hm1
        · subst h1
          simp only [eligibleB, ha, decide_eq_true_eq]
          norm_num
        rcases List.mem_cons.mp hm1 with h1 | hm2
        · subst h1
          simp only [eligibleB, hb, decide_eq_true_eq]
          norm_num
        rcases List.mem_cons.mp hm2 with h1 | hm3
        · subst h1
          simp only [eligibleB, hc, decide_eq_true_eq]
          norm_num
        · simp at hm3
    rw [hda]
    have hra : raisesB (fun a _ => if a = "b" then .raises else .dict (some "T"))
        (configWithRate (1/4)) ⟨"a", 4⟩ = false := by
      simp [raisesB]
    have hrb : raisesB (fun a _ => if a = "b" then .raises else .dict (some "T"))
        (configWithRate (1/4)) ⟨"b", 4⟩ = true := by
      simp [raisesB]
    have hrc : raisesB (fun a _ => if a = "b" then .raises else .dict (some "T"))
        (configWithRate (1/4)) ⟨"c", 4⟩ = false := by
      simp [raisesB]
    simp only [List.filter_cons, hra, hrb, hrc, Bool.not_true, Bool.not_false,
      Bool.false_eq_true, if_true, if_false, List.filter_nil, List.map_cons,
      List.map_nil, List.length_cons, List.length_nil, List.sum_cons, List.sum_nil]
    rw [ha, hc]
    norm_num

/-- C7: in dry-run mode — the collaborator returns a falsy value for
every call — each eligible holder is logged with status Success and the
non-empty placeholder id DRY_RUN, and the distributed total grows by the
computed amounts exactly as in a live run whose transfers all succeed. -/
theorem dry_run_success_and_accounting :
    (∀ (config : TokenConfig) (holders : List TokenHolder) (st : RunState),
      (process_payments (fun _ _ => .falsy) config holders st).audit_log =
        st.audit_log ++
          ((holders.filter fun h => decide (0 < h.payment_amount config)).map
            fun h => { account := h.account, balance := h.balance,
                       payment := h.payment_amount config, status := "Success",
                       transaction_id := "DRY_RUN" }) ∧
      (process_payments (fun _ _ => .falsy) config holders st).stats.total_tokens_distributed =
        st.stats.total_tokens_distributed +
          (((holders.filter fun h => decide (0 < h.payment_amount config)).map
            fun h => h.payment_amount config).sum) ∧
      (process_payments (fun _ _ => .falsy) config holders st).stats.total_tokens_distributed =
        (process_payments (fun _ _ => .dict (some "LIVE")) config holders st).stats.total_tokens_distributed) ∧
    ("DRY_RUN" : String) ≠ "" ∧
    process_payments (fun _ _ => .falsy) (configWithRate (1/4))
        [⟨"alice", 100⟩] ({} : RunState) =
      { audit_log := [{ account := "alice", balance := 100, payment := 25,
                        status := "Success", transaction_id := "DRY_RUN" }]
        stats := { total_holders := 0, successful_payments := 1, failed_payments := 0,
                   total_tokens_distributed := 25 }
        sleeps := 1 } := by
  refine ⟨?_, by simp, ?_⟩
  · intro config holders st
    have hrec : attemptRecord (fun _ _ => .falsy) config =
        fun h => { account := h.account, balance := h.balance,
                   payment := h.payment_amount config, status := "Success",
                   transaction_id := "DRY_RUN" } := by
      funext h
      simp [attemptRecord, send_transaction, pyTruthy]
    have hnr : ∀ h : TokenHolder,
        raisesB (fun _ _ => .falsy) config h = false := fun h => by simp [raisesB]
    have hnr2 : ∀ h : TokenHolder,
        raisesB (fun _ _ => .dict (some "LIVE")) config h = false := fun h => by
      simp [raisesB]
    refine ⟨?_, ?_, ?_⟩
    · rw [process_payments_char, hrec]
      rfl
    · rw [process_payments_char]
      simp [dispatched, eligibleB, List.filter_filter, hnr]
    · rw [process_payments_char, process_payments_char]
      simp [List.filter_filter, hnr, hnr2]
  · have hpay := pay_100_quarter "alice"
    rw [show process_payments (fun _ _ => .falsy) (configWithRate (1/4))
          [⟨"alice", 100⟩] ({} : RunState) =
        processHolder (fun _ _ => .falsy) (configWithRate (1/4)) {} ⟨"alice", 100⟩
        from rfl,
      processHolder_of_elig _ _ _ _ (by rw [hpay]; norm_num)]
    simp only [attemptRecord, send_transaction, hpay, pyTruthy]
    norm_num
    simp


/-- C5: the holder filter truncates each parsed balance toward zero to
whole units and emits exactly the holders whose truncated balance is at
least 1 and whose account is not blacklisted; zero-balance or
blacklisted holders never appear in its output, whatever the fetch. -/
theorem richlist_filter_exact :
    (∀ (config : TokenConfig) (parsed : List (String × ℚ)),
        richlistOf config parsed = specEligibleHolders config parsed) ∧
    (∀ (config : TokenConfig) (raw : List RawHolder),
        (∀ r ∈ raw, r.balance.isSome) →
        get_richlist config (some raw) =
          specEligibleHolders config
            (raw.filterMap fun r => r.balance.map fun b => (r.account, b))) ∧
    (∀ (config : TokenConfig) (fetch : Option (List RawHolder)) (h : TokenHolder),
        h ∈ get_richlist config fetch →
        1 ≤ h.balance ∧ h.account ∉ config.blacklisted_accounts) ∧
    get_richlist { configWithRate (1/4) with blacklisted_accounts := ["bad"] }
        (some [⟨"A", some (201/2)⟩, ⟨"B", some 0⟩, ⟨"bad", some 5⟩]) =
      [⟨"A", 100⟩] := by
  have part1 : ∀ (config : TokenConfig) (parsed : List (String × ℚ)),
      richlistOf config parsed = specEligibleHolders config parsed := by
    intro config parsed
    rw [richlistOf, specEligibleHolders]
    simp only [quantizeUnits]
    congr 1
    apply List.filter_congr
    intro p _
    rw [decide_eq_decide.mpr one_le_truncTowardZero_iff.symm]
  refine ⟨part1, ?_, ?_, ?_⟩
  · intro config raw hs
    rw [get_richlist, get_richlist_run, parseBalances_of_all_some raw hs]
    exact part1 config _
  · intro config fetch h hmem
    rw [get_richlist] at hmem
    cases fetch with
    | none => simp [get_richlist_run] at hmem
    | some raw =>
      rw [get_richlist_run] at hmem
      cases hp : parseBalances raw with
      | none =>
        rw [hp] at hmem
        simp at hmem
      | some parsed =>
        rw [hp] at hmem
        dsimp only at hmem
        rw [richlistOf] at hmem
        obtain ⟨p, hpmem, hph⟩ := List.mem_map.mp hmem
        obtain ⟨-, hcond⟩ := List.mem_filter.mp hpmem
        simp only [Bool.and_eq_true, decide_eq_true_eq, Bool.not_eq_true] at hcond
        constructor
        · rw [← hph]
          show (1 : ℚ) ≤ quantizeUnits p.2
          rw [quantizeUnits]
          exact_mod_cast one_le_truncTowardZero_iff.mpr hcond.1
        · rw [← hph]
          simpa using hcond.2
  · rw [get_richlist, get_richlist_run, parseBalances_of_all_some _ (by simp)]
    dsimp only
    have h1 : truncTowardZero (201/2 : ℚ) = 100 :=
      truncTowardZero_eq_of (by norm_num) (by norm_num) (by norm_num)
    rw [richlistOf]
    norm_num [List.filterMap_cons, List.filter_cons, quantizeUnits, h1]
    simp
    exact_mod_cast h1

/-- C6: a payout decision is eligible exactly when its quantized amount
reaches one quantization unit; ineligible holders are skipped entirely —
no dispatch, no audit record, no inter-send sleep — yet counted in
`total_holders`.  In the two-holder scenario A:100, B:0 at rate 1/4
exactly one record (for A, amount 25) is produced and `total_holders`
is 1; a filtered-in holder whose amount quantizes to zero is counted but
never dispatched. -/
theorem eligibility_threshold :
    (∀ (config : TokenConfig) (h : TokenHolder),
        0 < h.payment_amount config ↔ (1 : ℚ)/10000 ≤ h.payment_amount config) ∧
    (∀ (transfer : TransferFn) (config : TokenConfig) (st : RunState) (h : TokenHolder),
        ¬ 0 < h.payment_amount config → processHolder transfer config st h = st) ∧
    (∀ transfer : TransferFn,
        (runMain (configWithRate (1/4))
            (some [⟨"A", some 100⟩, ⟨"B", some 0⟩]) transfer).stats.total_holders = 1 ∧
        (runMain (configWithRate (1/4))
            (some [⟨"A", some 100⟩, ⟨"B", some 0⟩]) transfer).audit_log =
          [attemptRecord transfer (configWithRate (1/4)) ⟨"A", 100⟩] ∧
        (attemptRecord transfer (configWithRate (1/4)) ⟨"A", 100⟩).account = "A" ∧
        (attemptRecord transfer (configWithRate (1/4)) ⟨"A", 100⟩).payment = 25) ∧
    (∀ transfer : TransferFn,
        runMain (configWithRate (1/100000)) (some [⟨"C", some 1⟩]) transfer =
          { stats := { total_holders := 1 } }) := by
  refine ⟨?_, processHolder_of_not_elig, ?_, ?_⟩
  · intro config h
    rw [TokenHolder.payment_amount]
    exact quantize4_pos_iff
  · intro transfer
    have hda : dispatched (configWithRate (1/4)) [⟨"A", 100⟩] = [⟨"A", 100⟩] :=
      List.filter_eq_self.mpr fun h hm => by
        rcases List.mem_cons.mp hm with h1 | hm1
        · subst h1
          simp only [eligibleB, pay_100_quarter, decide_eq_true_eq]
          norm_num
        · simp at hm1
    rw [runMain_eq, richlist_scenario_AB]
    dsimp only
    rw [process_payments_char, hda]
    refine ⟨rfl, by simp, by simp [attemptRecord], ?_⟩
    simp only [attemptRecord, pay_100_quarter]
  · intro transfer
    have hdc : dispatched (configWithRate (1/100000)) [⟨"C", 1⟩] = [] := by
      rw [dispatched, List.filter_cons]
      simp only [eligibleB, pay_1_tiny, List.filter_nil]
      norm_num
    rw [runMain_eq, richlist_scenario_C]
    dsimp only
    rw [process_payments_char, hdc]
    simp

/-- C9 counterexample: a parseable non-positive payout rate (zero) is
accepted by startup — the program does not abort — and the whole run then
completes normally with a zero-payment result. -/
theorem nonpositive_rate_passes_startup :
    startup ⟨some "K1", some "K2", some 0, false⟩ =
      .ok { payout_rate := 0, token_query := "ARCHONM", token_name := "ARCHON",
            blacklisted_accounts := ["ufm.pay", "upfundme"], nobroadcast := false } ∧
    ({ payout_rate := 0, token_query := "ARCHONM", token_name := "ARCHON",
       blacklisted_accounts := ["ufm.pay", "upfundme"],
       nobroadcast := false } : TokenConfig).payout_rate ≤ 0 ∧
    runFull ⟨some "K1", some "K2", some 0, false⟩ (some [⟨"alice", some 100⟩])
        (fun _ _ => .dict (some "TX")) =
      .ok { stats := { total_holders := 1 } } := by
  have hstart : startup (⟨some "K1", some "K2", some 0, false⟩ : Env) =
      .ok { payout_rate := 0, token_query := "ARCHONM", token_name := "ARCHON",
            blacklisted_accounts := ["ufm.pay", "upfundme"], nobroadcast := false } := by
    simp [startup, from_env, missing_vars, pyTruthy]
  refine ⟨hstart, by norm_num, ?_⟩
  rw [runFull, hstart]
  have hrl : get_richlist_run
      { payout_rate := 0, token_query := "ARCHONM", token_name := "ARCHON",
        blacklisted_accounts := ["ufm.pay", "upfundme"], nobroadcast := false }
      (some [⟨"alice", some 100⟩]) {} =
      ([⟨"alice", 100⟩], { stats := { total_holders := 1 } }) := by
    rw [get_richlist_run, parseBalances_of_all_some _ (by simp)]
    norm_num [richlistOf, List.filterMap_cons, List.filter_cons, quantizeUnits]
    simp
    have h100 : truncTowardZero (100 : ℚ) = 100 :=
      truncTowardZero_eq_of (by norm_num) (by norm_num) (by norm_num)
    rw [h100]
    norm_num
  rw [show (Except.map (fun config =>
        runMain config (some [⟨"alice", some 100⟩]) (fun _ _ => .dict (some "TX")))
        (Except.ok (ε := ℕ)
          { payout_rate := 0, token_query := "ARCHONM", token_name := "ARCHON",
            blacklisted_accounts := ["ufm.pay", "upfundme"], nobroadcast := false })) =
      Except.ok (runMain
        { payout_rate := 0, token_query := "ARCHONM", token_name := "ARCHON",
          blacklisted_accounts := ["ufm.pay", "upfundme"], nobroadcast := false }
        (some [⟨"alice", some 100⟩]) (fun _ _ => .dict (some "TX"))) from rfl,
    runMain_eq, hrl]
  rw [process_payments_of_rate_nonpos _ _ (by norm_num) _ (by norm_num) _]

/-- C9 (amended): missing signing secrets, or a payout-rate value that
fails to parse, abort the program with a non-zero status before any
holder is processed; the rate's sign is never validated, neither at
configuration time nor per holder. -/
theorem config_missing_secrets_fatal :
    (∀ e : Env, missing_vars e ≠ [] → startup e = .error 1) ∧
    (∀ e : Env, e.payout_rate = none → startup e = .error 1) ∧
    (∀ (e : Env) (fetch : Option (List RawHolder)) (transfer : TransferFn),
        startup e = .error 1 → runFull e fetch transfer = .error 1) ∧
    missing_vars ⟨none, some "K", some (1/4), false⟩ ≠ [] ∧
    runFull ⟨none, some "K", some (1/4), false⟩ (some [⟨"alice", some 100⟩])
        (fun _ _ => .falsy) = .error 1 ∧
    runFull ⟨some "K1", some "K2", none, false⟩ (some [⟨"alice", some 100⟩])
        (fun _ _ => .falsy) = .error 1 := by
  have part1 : ∀ e : Env, missing_vars e ≠ [] → startup e = .error 1 := by
    intro e hne
    rw [startup]
    cases hfe : from_env e with
    | none => rfl
    | some config =>
      dsimp only
      rw [if_neg hne]
  have part2 : ∀ e : Env, e.payout_rate = none → startup e = .error 1 := by
    intro e hpr
    rw [startup]
    have : from_env e = none := by simp [from_env, hpr]
    rw [this]
  have part3 : ∀ (e : Env) (fetch : Option (List RawHolder)) (transfer : TransferFn),
      startup e = .error 1 → runFull e fetch transfer = .error 1 := by
    intro e fetch transfer h
    rw [runFull, h]
    rfl
  have hm : missing_vars (⟨none, some "K", some (1/4), false⟩ : Env) ≠ [] := by
    simp [missing_vars, pyTruthy]
  refine ⟨part1, part2, part3, hm, ?_, ?_⟩
  · exact part3 _ _ _ (part1 _ hm)
  · exact part3 _ _ _ (part2 _ rfl)

end MiningArc
